import Mathlib

/-!
Shallow embedding of the upload session coordinator of capacitor-tus-client
(Android implementation: CapacitorTusClientPlugin.java,
CapacitorTusClientRunnable.java, CapacitorTusClientConfig.java).

Modelling conventions:
- Java `Map<String,String>` values may be null, so metadata maps are
  association lists with `Option String` values; `none` is Java null.
- Java `double` progress values are modelled exactly: a finite value is the
  exact fraction `num / den` carried unevaluated, division by zero yields
  `nan` (for a zero numerator) or `inf` (either Java infinity), matching
  `((double) bytesUploaded / totalBytes) * 100`.
- The transfer loop of `CapacitorTusClientRunnable.makeAttempt` is driven by
  a schedule that supplies the values the external TusUploader returns
  (`getOffset`, `uploadChunk`) and the instant at which the asynchronously
  written `shouldFinish` flag becomes true.  Flag observation points inside
  one loop iteration are numbered: the progress emission of iteration `i`
  happens at phase `3*i`, the `uploadChunk` call at `3*i + 1`, and the
  loop-condition check of `shouldFinish` at `3*i + 2`.
- The worker pool is modelled sequentially: a scheduler step runs the head
  of the submitted queue to completion.  Exception-free external calls are
  recorded as trace actions; a fuel bound cuts off unbounded loops (running
  out of fuel behaves like the engine reporting no more data).
-/

namespace TusClient

/-- Java `Map<String, String>` (HashMap), values may be null. -/
abbrev Meta := List (String × Option String)

/-- Java `HashMap.put` on an association list: replace the binding if the
key is present, append otherwise. -/
def assocPut {β : Type} : List (String × β) → String → β → List (String × β)
  | [], k, v => [(k, v)]
  | (k0, v0) :: rest, k, v =>
      if k0 = k then (k, v) :: rest else (k0, v0) :: assocPut rest k v

/-- Java `HashMap.get` on an association list. -/
def assocLookup {β : Type} : List (String × β) → String → Option β
  | [], _ => none
  | (k0, v0) :: rest, k => if k0 = k then some v0 else assocLookup rest k

/-- Java `double` value as produced by the progress computation: a finite
value is kept as the exact fraction `num / den`; `nan` and `inf` are the
non-finite results of dividing by zero. -/
inductive JD where
  | fin (num den : Int)
  | nan
  | inf
deriving DecidableEq, Repr

/-- Whether a modelled double is a finite number. -/
def JD.isFinite : JD → Bool
  | .fin _ _ => true
  | .nan => false
  | .inf => false

/-- `((double) bytesUploaded / totalBytes) * 100` from
`CapacitorTusClientRunnable.makeAttempt`: exact value `(100 * b) / t` when
`t` is nonzero, otherwise the Java zero-division results NaN (for `0/0`)
or an infinity. -/
def progressOf (b t : Int) : JD :=
  if t = 0 then (if b = 0 then JD.nan else JD.inf) else JD.fin (100 * b) t

/-- The parts of an Android `Cursor` that
`CapacitorTusClientPlugin.getFileName` consults: whether
`getColumnIndex(DISPLAY_NAME)` found the column, whether `moveToFirst`
found a row, and the value `getString` returns for that cell (Java null is
`none`). -/
structure CursorData where
  hasNameColumn : Bool
  hasRow : Bool
  nameValue : Option String
deriving DecidableEq, Repr

/-- `CapacitorTusClientPlugin.getFileName`: the outer `Option` argument is
the cursor returned by the content resolver query (null when `none`); the
result is the Java `String` return value, which is null exactly when the
display-name cell itself holds null. -/
def getFileName : Option CursorData → Option String
  | none => some "unknown_file"
  | some c =>
      if c.hasNameColumn && c.hasRow then c.nameValue else some "unknown_file"

/-- Java `String.format "%s"` rendering of a possibly-null string. -/
def javaFormatS : Option String → String
  | none => "null"
  | some s => s

/-- `upload.setFingerprint(String.format("%s-%s", fileName, uploadId))` from
the `CapacitorTusClientRunnable` constructor. -/
def fingerprintOf (f : Option String) (id : String) : String :=
  javaFormatS f ++ "-" ++ id

/-- `metadata.put("filename", fileName)` from the
`CapacitorTusClientRunnable` constructor, applied to the caller-supplied
metadata map. -/
def ctorMeta (m : Meta) (f : Option String) : Meta :=
  assocPut m "filename" f

/-- Observable actions of one session: the four listener events emitted via
`plugin.triggerListener`, plus the internal engine interactions that the
claims talk about (the chunk-size read at attempt start, each
`uploadChunk` call, and the `uploader.finish()` finalize call). -/
inductive Ev where
  | onStart (id : String) (ctx : Meta)
  | onProgress (id : String) (value : JD) (bytesUploaded totalBytes : Int) (ctx : Meta)
  | onSuccess (id : String) (ctx : Meta)
  | onError (id : String) (ctx : Meta)
  | chunkSizeRead (id : String) (v : Int)
  | chunkSend (id : String) (iter : Nat) (ret : Int)
  | finalizeCall (id : String)
deriving DecidableEq, Repr

/-- Whether an action is one of the four events delivered to listeners. -/
def isListenerEv : Ev → Bool
  | .onStart _ _ => true
  | .onProgress _ _ _ _ _ => true
  | .onSuccess _ _ => true
  | .onError _ _ => true
  | _ => false

/-- The uploadId an action belongs to. -/
def evId : Ev → String
  | .onStart id _ => id
  | .onProgress id _ _ _ _ => id
  | .onSuccess id _ => id
  | .onError id _ => id
  | .chunkSizeRead id _ => id
  | .chunkSend id _ _ => id
  | .finalizeCall id => id

/-- Schedule for one `makeAttempt` invocation, supplying the behaviour of
the external TusClient/TusUploader and the asynchronous flag writes:
`offsetAt i` is `uploader.getOffset()` at iteration `i`, `chunkRet i` the
return value of the `uploadChunk()` call of iteration `i`, `finishTime`
the phase (see the phase numbering in the file header) from which
`shouldFinish` reads true, `createThrows` whether `resumeOrCreateUpload`
throws, `throwAt` the iteration whose `uploadChunk` call throws,
`finalizeThrows` whether `uploader.finish()` throws, and `errRetryable`
whether a thrown exception is a retryable ProtocolException. -/
structure AttemptSched where
  offsetAt : Nat → Int
  chunkRet : Nat → Int
  finishTime : Option Nat
  createThrows : Bool
  throwAt : Option Nat
  finalizeThrows : Bool
  errRetryable : Bool

/-- Whether `shouldFinish` reads true at phase `p`. -/
def finSet (ft : Option Nat) (p : Nat) : Bool :=
  match ft with
  | none => false
  | some t => decide (t ≤ p)

/-- The do-while transfer loop of `CapacitorTusClientRunnable.makeAttempt`:
each iteration emits the progress event, then evaluates `uploadChunk`, and
continues while the chunk call returned more than `-1` and `shouldFinish`
is still false at the condition check.  The pause wait at the top of the
body emits nothing and is absorbed into the free choice of `finishTime`.
Returns the action list and whether the iteration threw. -/
def loopActs (id : String) (ctx : Meta) (total : Int) (sc : AttemptSched) :
    Nat → Nat → List Ev × Bool
  | 0, _ => ([], false)
  | Nat.succ fuel, i =>
      let pr := Ev.onProgress id (progressOf (sc.offsetAt i) total) (sc.offsetAt i) total ctx
      let ch := Ev.chunkSend id i (sc.chunkRet i)
      if sc.throwAt = some i then ([pr, ch], true)
      else if sc.chunkRet i > -1 && !finSet sc.finishTime (3 * i + 2) then
        let r := loopActs id ctx total sc fuel (i + 1)
        (pr :: ch :: r.1, r.2)
      else ([pr, ch], false)

/-- One `makeAttempt` invocation: `resumeOrCreateUpload` (which may throw),
the chunk-size read `CapacitorTusClientConfig.getInstance().getChunkSize()`
applied to the uploader, the transfer loop, and on normal loop exit the
`uploader.finish()` finalize call (which may itself throw).  Returns the
action list and whether the attempt threw. -/
def attemptActs (id : String) (ctx : Meta) (total : Int) (cfg : Int)
    (sc : AttemptSched) (fuel : Nat) : List Ev × Bool :=
  if sc.createThrows then ([], true)
  else
    let r := loopActs id ctx total sc fuel 0
    if r.2 then (Ev.chunkSizeRead id cfg :: r.1, true)
    else (Ev.chunkSizeRead id cfg :: r.1 ++ [Ev.finalizeCall id], sc.finalizeThrows)

/-- The external `TusExecutor.makeAttempts` retry wrapper: attempts run in
order; a non-throwing attempt ends the run successfully; a retryable
failure moves on to the next scheduled attempt; a non-retryable failure
(or exhaustion) ends the run with failure.  Returns the concatenated
action list, the success flag, and whether an uploader was ever assigned
(`resumeOrCreateUpload` returned at least once). -/
def runAttempts (id : String) (ctx : Meta) (total : Int) (cfg : Int) :
    List AttemptSched → Nat → List Ev × Bool × Bool
  | [], _ => ([], false, false)
  | sc :: rest, fuel =>
      let r := attemptActs id ctx total cfg sc fuel
      if r.2 = false then (r.1, true, !sc.createThrows)
      else if sc.errRetryable then
        let r2 := runAttempts id ctx total cfg rest fuel
        (r.1 ++ r2.1, r2.2.1, (!sc.createThrows || r2.2.2))
      else (r.1, false, !sc.createThrows)

/-- Mutable and immutable state of one `CapacitorTusClientRunnable`. -/
structure SessionState where
  uploadId : String
  meta : Meta
  fingerprint : String
  total : Int
  shouldFinish : Bool
  isRunning : Bool
  isPaused : Bool
  hasUploader : Bool
deriving DecidableEq, Repr

/-- `CapacitorTusClientRunnable.isRunning()`: running and not paused. -/
def isRunningM (s : SessionState) : Bool :=
  s.isRunning && !s.isPaused

/-- The session built by the `CapacitorTusClientRunnable` constructor for a
fresh upload: the file name is resolved through `getFileName`, the size
comes from `inputStream.available()` (`none` when that call threw, in
which case the TusUpload size keeps its default 0), the filename metadata
entry is written unconditionally, and the fingerprint is
`String.format("%s-%s", fileName, uploadId)`. -/
def mkSession (uuid : String) (metadata : Meta) (avail : Option Int)
    (cursor : Option CursorData) : SessionState :=
  let fileName := getFileName cursor
  { uploadId := uuid
    meta := ctorMeta metadata fileName
    fingerprint := fingerprintOf fileName uuid
    total := avail.getD 0
    shouldFinish := false
    isRunning := false
    isPaused := false
    hasUploader := false }

/-- `CapacitorTusClientRunnable.run()`: set `isRunning`, emit `onStart`,
run `makeAttempts`, emit `onSuccess` on normal return and `onError` when
an exception escaped, clear `isRunning`. -/
def runSession (s : SessionState) (cfg : Int) (scripts : List AttemptSched)
    (fuel : Nat) : SessionState × List Ev :=
  let r := runAttempts s.uploadId s.meta s.total cfg scripts fuel
  let term := if r.2.1 then Ev.onSuccess s.uploadId s.meta
              else Ev.onError s.uploadId s.meta
  ({ s with isRunning := false, hasUploader := s.hasUploader || r.2.2 },
   Ev.onStart s.uploadId s.meta :: r.1 ++ [term])

/-- `CapacitorTusClientRunnable.finish()`: when running, request graceful
termination by setting `shouldFinish`; otherwise call `uploader.finish()`
only if an uploader exists.  The boolean reports whether the finalize call
was made. -/
def finishSession (s : SessionState) : SessionState × Bool :=
  if s.isRunning then ({ s with shouldFinish := true }, false)
  else if s.hasUploader then (s, true)
  else (s, false)

/-- Process-wide plugin state: the `executorsMap` registry, the queue of
runnables submitted to the worker pool, and the chunk-size field of the
`CapacitorTusClientConfig` singleton. -/
structure PluginState where
  executorsMap : List (String × SessionState)
  pool : List String
  config : Int
deriving Repr

/-- Fresh plugin state: empty registry, empty pool, and the singleton
initialiser `chunkSize = 6 * 1024 * 1024`. -/
def initialState : PluginState :=
  { executorsMap := [], pool := [], config := 6 * 1024 * 1024 }

/-- Synchronous outcome of one plugin call: `call.resolve` with a payload
or `call.reject` with a message. -/
inductive CmdRes where
  | resolved (payload : List (String × String))
  | rejected (msg : String)
deriving DecidableEq, Repr

/-- Caller-supplied `options` object of an upload request. -/
structure UploadOpts where
  uri : Option String
  endpoint : Option String
  headers : Meta
  metadata : Meta
  chunkSize : Option Int

/-- Result of `getContentResolver().openInputStream(uri)`: a stream whose
`available()` call returns the given size (`none` when `available` threw),
a null stream, or an IOException. -/
inductive StreamRes where
  | opensWith (avail : Option Int)
  | opensNull
  | throwsIO
deriving Repr

/-- External environment of one upload request: the content-resolver
stream and the display-name cursor. -/
structure UploadEnv where
  stream : StreamRes
  cursor : Option CursorData
deriving Repr

/-- Scan for a scheme delimiter: true when a colon occurs and at least one
character precedes the first colon (`n` counts the characters seen). -/
def urlValidAux : List Char → Nat → Bool
  | [], _ => false
  | c :: rest, n => if c = ':' then decide (0 < n) else urlValidAux rest (n + 1)

/-- Model of the `new URL(endpoint)` protocol check in the
`CapacitorTusClientRunnable` constructor: a MalformedURLException (no
protocol) is thrown unless the string has a nonempty scheme before a
colon. -/
def urlValid (endpoint : String) : Bool :=
  urlValidAux endpoint.data 0

/-- `CapacitorTusClientPlugin.upload`, in source order: validate the
options object, the uri, and a non-null endpoint; overwrite the singleton
chunk size when a positive custom value was supplied; open the input
stream; construct the runnable (whose `new URL(endpoint)` may throw); put
it in the registry; submit it to the pool since a fresh runnable is not
running; resolve with the generated uploadId.  Rejection messages carry
the source text with quote characters and exception detail elided. -/
def uploadCall (st : PluginState) (uuid : String) (opts : Option UploadOpts)
    (env : UploadEnv) : PluginState × CmdRes × List Ev :=
  match opts with
  | none => (st, CmdRes.rejected "Missing options for the upload.", [])
  | some o =>
    match o.uri with
    | none => (st, CmdRes.rejected "The uri provided is null or empty.", [])
    | some uri =>
      if uri = "" then
        (st, CmdRes.rejected "The uri provided is null or empty.", [])
      else
        match o.endpoint with
        | none => (st, CmdRes.rejected "Missing endpoint in options.", [])
        | some endpoint =>
          let cfg := match o.chunkSize with
                     | some c => if c > 0 then c else st.config
                     | none => st.config
          let st1 := { st with config := cfg }
          match env.stream with
          | StreamRes.throwsIO =>
              (st1, CmdRes.rejected "Error creating upload: stream", [])
          | StreamRes.opensNull =>
              (st1, CmdRes.rejected "Unable to open file stream for the Uri.", [])
          | StreamRes.opensWith avail =>
            if urlValid endpoint = false then
              (st1, CmdRes.rejected "Error creating upload: no protocol", [])
            else
              let sess := mkSession uuid o.metadata avail env.cursor
              let st2 := { st1 with
                executorsMap := assocPut st1.executorsMap uuid sess }
              let st3 := if isRunningM sess = false then
                           { st2 with pool := st2.pool ++ [uuid] }
                         else st2
              (st3, CmdRes.resolved [("uploadId", uuid)], [])

/-- `CapacitorTusClientPlugin.pause`: reject on a null or unknown
uploadId, otherwise set the paused flag and resolve. -/
def pauseCall (st : PluginState) (uploadId : Option String) :
    PluginState × CmdRes × List Ev :=
  match uploadId with
  | none => (st, CmdRes.rejected "Invalid or missing uploadId", [])
  | some id =>
    match assocLookup st.executorsMap id with
    | none => (st, CmdRes.rejected "Invalid or missing uploadId", [])
    | some s =>
        ({ st with executorsMap :=
             assocPut st.executorsMap id { s with isPaused := true } },
         CmdRes.resolved
           [("success", "true"), ("message", "Upload paused successfully")],
         [])

/-- `CapacitorTusClientPlugin.resume`: reject on a null or unknown
uploadId; otherwise clear the paused flag and, when `isRunning()` is then
false, submit the runnable to the pool again; resolve. -/
def resumeCall (st : PluginState) (uploadId : Option String) :
    PluginState × CmdRes × List Ev :=
  match uploadId with
  | none => (st, CmdRes.rejected "Invalid or missing uploadId", [])
  | some id =>
    match assocLookup st.executorsMap id with
    | none => (st, CmdRes.rejected "Invalid or missing uploadId", [])
    | some s =>
        let s1 := { s with isPaused := false }
        let st1 := { st with executorsMap := assocPut st.executorsMap id s1 }
        let st2 := if isRunningM s1 = false then
                     { st1 with pool := st1.pool ++ [id] }
                   else st1
        (st2, CmdRes.resolved
           [("success", "true"), ("message", "Upload resumed successfully")],
         [])

/-- `CapacitorTusClientPlugin.abort`: reject on a null or unknown
uploadId; otherwise call the runnable's `finish()`; when the finalize call
was made and threw, reject, else resolve.  `finalizeFails` models whether
`uploader.finish()` throws. -/
def abortCall (st : PluginState) (uploadId : Option String)
    (finalizeFails : Bool) : PluginState × CmdRes × List Ev :=
  match uploadId with
  | none => (st, CmdRes.rejected "Invalid or missing uploadId", [])
  | some id =>
    match assocLookup st.executorsMap id with
    | none => (st, CmdRes.rejected "Invalid or missing uploadId", [])
    | some s =>
        let r := finishSession s
        if r.2 && finalizeFails then
          (st, CmdRes.rejected "Error aborting upload: finalize", [])
        else
          ({ st with executorsMap := assocPut st.executorsMap id r.1 },
           CmdRes.resolved [], [])

/-- One externally triggered step: a plugin call, or the worker pool
dispatching the runnable at the head of the submitted queue (`opRun`,
carrying the engine behaviour for that execution). -/
inductive Op where
  | opUpload (uuid : String) (opts : Option UploadOpts) (env : UploadEnv)
  | opPause (id : Option String)
  | opResume (id : Option String)
  | opAbort (id : Option String) (finalizeFails : Bool)
  | opRun (scripts : List AttemptSched) (fuel : Nat)

/-- Interleaving semantics of the coordinator: execute one step, returning
the next plugin state and the actions it emitted. -/
def stepOp (st : PluginState) : Op → PluginState × List Ev
  | Op.opUpload uuid opts env =>
      let r := uploadCall st uuid opts env
      (r.1, r.2.2)
  | Op.opPause id =>
      let r := pauseCall st id
      (r.1, r.2.2)
  | Op.opResume id =>
      let r := resumeCall st id
      (r.1, r.2.2)
  | Op.opAbort id ff =>
      let r := abortCall st id ff
      (r.1, r.2.2)
  | Op.opRun scripts fuel =>
      match st.pool with
      | [] => (st, [])
      | id :: rest =>
        match assocLookup st.executorsMap id with
        | none => ({ st with pool := rest }, [])
        | some s =>
          let r := runSession s st.config scripts fuel
          let st1 := { st with pool := rest
                               executorsMap := assocPut st.executorsMap id r.1 }
          (st1, r.2)

/-- Run a sequence of steps from a state, concatenating emitted actions. -/
def runOps : PluginState → List Op → PluginState × List Ev
  | st, [] => (st, [])
  | st, op :: rest =>
      let r := stepOp st op
      let r2 := runOps r.1 rest
      (r2.1, r.2 ++ r2.2)

/-- Whether an action is the `onStart` event. -/
def isStartEv : Ev → Bool
  | .onStart _ _ => true
  | _ => false

/-- Whether an action is the `onProgress` event. -/
def isProgressEv : Ev → Bool
  | .onProgress _ _ _ _ _ => true
  | _ => false

/-- Whether an action is a terminal event (`onSuccess` or `onError`). -/
def isTerminalEv : Ev → Bool
  | .onSuccess _ _ => true
  | .onError _ _ => true
  | _ => false

/-- The listener events belonging to one uploadId, in emission order. -/
def eventsFor (id : String) (l : List Ev) : List Ev :=
  l.filter (fun e => isListenerEv e && decide (evId e = id))

/-- Zero or more `onProgress` events followed by exactly one terminal
event and nothing after it. -/
def tailShape : List Ev → Bool
  | [] => false
  | e :: rest =>
      if rest.isEmpty then isTerminalEv e else isProgressEv e && tailShape rest

/-- The event-ordering contract of the spec for one session: `onStart`
first, then zero or more `onProgress`, then exactly one terminal event,
and no event at all after the terminal one (vacuously true for a session
that emitted nothing yet). -/
def sessionShape : List Ev → Bool
  | [] => true
  | e :: rest => isStartEv e && tailShape rest

/-- Scan checking that every `chunkSend` is immediately preceded by the
`onProgress` event of the same iteration carrying the offset, the total,
the exact progress fraction, and the session context; `prev` is the action
just before the current head. -/
def chunkPairedFrom (id : String) (ctx : Meta) (total : Int)
    (off : Nat → Int) : Option Ev → List Ev → Bool
  | _, [] => true
  | prev, e :: rest =>
      (match e with
       | Ev.chunkSend _ i _ =>
           decide (prev =
             some (Ev.onProgress id (progressOf (off i) total) (off i) total ctx))
       | _ => true)
      && chunkPairedFrom id ctx total off (some e) rest

/-- Whether an action is a chunk send whose `uploadChunk` call happened at
or after phase `T` (the phase of the chunk call of iteration `i` is
`3 * i + 1`). -/
def isChunkAfter (T : Nat) : Ev → Bool
  | .chunkSend _ i _ => decide (T ≤ 3 * i + 1)
  | _ => false

/-- Number of chunk sends happening at or after phase `T`. -/
def chunksAfter (T : Nat) (l : List Ev) : Nat :=
  (l.filter (isChunkAfter T)).length

/-- The chunk-size values read (at transfer-attempt start) by the given
uploadId, in order. -/
def chunkReadsFor (id : String) (l : List Ev) : List Int :=
  l.filterMap (fun e =>
    match e with
    | Ev.chunkSizeRead i v => if i = id then some v else none
    | _ => none)

/-- Engine schedule for a one-iteration successful transfer: the first
`uploadChunk` call already reports no more data, nothing throws, and no
command touches `shouldFinish`. -/
def okSched : AttemptSched :=
  { offsetAt := fun _ => 0
    chunkRet := fun _ => -1
    finishTime := none
    createThrows := false
    throwAt := none
    finalizeThrows := false
    errRetryable := false }

/-- A well-formed upload request without a custom chunk size. -/
def okOpts : UploadOpts :=
  { uri := some "content://doc/1"
    endpoint := some "http://example.test/files"
    headers := []
    metadata := []
    chunkSize := none }

/-- Environment in which the stream opens with a known size of 10 bytes
and the display-name query returns no cursor. -/
def okEnv : UploadEnv :=
  { stream := StreamRes.opensWith (some 10), cursor := none }

/-- Scenario: create an upload, let its run loop finish successfully, then
call `resume` on it (which resubmits the runnable because `isRunning()` is
false), and let the pool dispatch it again. -/
def resumeScenarioOps : List Op :=
  [ Op.opUpload "u1" (some okOpts) okEnv
  , Op.opRun [okSched] 4
  , Op.opResume (some "u1")
  , Op.opRun [okSched] 4 ]

/-- Actions emitted by the resume-after-completion scenario. -/
def resumeScenarioEvents : List Ev :=
  (runOps initialState resumeScenarioOps).2

/-- An upload request carrying a custom chunk size of 1000 bytes. -/
def customChunkOpts : UploadOpts :=
  { okOpts with chunkSize := some 1000 }

/-- An upload request whose endpoint is the empty string. -/
def emptyEndpointOpts : UploadOpts :=
  { okOpts with endpoint := some "" }

/-- An upload request carrying a custom chunk size of zero. -/
def zeroChunkOpts : UploadOpts :=
  { okOpts with chunkSize := some 0 }

/-- Scenario: an upload with custom chunk size 1000, then an upload
without a custom chunk size, then both runnables are dispatched. -/
def chunkScenarioOps : List Op :=
  [ Op.opUpload "u1" (some customChunkOpts) okEnv
  , Op.opUpload "u2" (some okOpts) okEnv
  , Op.opRun [okSched] 4
  , Op.opRun [okSched] 4 ]

/-- Actions emitted by the chunk-size scenario. -/
def chunkScenarioEvents : List Ev :=
  (runOps initialState chunkScenarioOps).2

/-- Engine schedule on which `shouldFinish` is already true when the loop
body starts (an abort arrived just after `run()` began) while the engine
still has data (`uploadChunk` keeps returning 5 sent bytes). -/
def abortedSched : AttemptSched :=
  { offsetAt := fun _ => 0
    chunkRet := fun _ => 5
    finishTime := some 0
    createThrows := false
    throwAt := none
    finalizeThrows := false
    errRetryable := false }

/-- Caller metadata that already carries a filename entry. -/
def presetMeta : Meta := [("filename", some "custom.txt")]

/-- A session that was constructed but never dispatched: not running, no
uploader assigned yet. -/
def idleSession : SessionState :=
  mkSession "u1" [] (some 10) none

/-- A cursor whose display-name column exists and has a row, but whose
display-name cell holds SQL NULL, so `Cursor.getString` returns null. -/
def nullNameCursor : CursorData :=
  { hasNameColumn := true, hasRow := true, nameValue := none }

/-! Support lemmas shared by the claim theorems. -/

theorem assocLookup_put_self {β : Type} (m : List (String × β)) (k : String)
    (v : β) : assocLookup (assocPut m k v) k = some v := by
  induction m with
  | nil => simp [assocPut, assocLookup]
  | cons hd tl ih =>
    obtain ⟨k0, v0⟩ := hd
    by_cases h : k0 = k
    · simp [assocPut, assocLookup, h]
    · simp [assocPut, assocLookup, h, ih]

/-- Every action of the transfer loop is an `onProgress` event of the
session (built by the progress formula) or a chunk send; in particular it
belongs to the session and is never a chunk-size read. -/
theorem loopActs_mem (id : String) (ctx : Meta) (total : Int)
    (sc : AttemptSched) :
    ∀ (fuel i : Nat) (e : Ev), e ∈ (loopActs id ctx total sc fuel i).1 →
      (∃ j, e = Ev.onProgress id (progressOf (sc.offsetAt j) total)
              (sc.offsetAt j) total ctx)
      ∨ (∃ j r, e = Ev.chunkSend id j r) := by
  intro fuel
  induction fuel with
  | zero => intro i e he; simp [loopActs] at he
  | succ n ih =>
    intro i e he
    simp only [loopActs] at he
    by_cases h1 : sc.throwAt = some i
    · simp only [h1, if_pos, if_true] at he
      simp at he
      rcases he with h | h
      · exact Or.inl ⟨i, h⟩
      · exact Or.inr ⟨i, _, h⟩
    · simp only [if_neg h1] at he
      by_cases h2 : (sc.chunkRet i > -1 && !finSet sc.finishTime (3 * i + 2)) = true
      · simp only [if_pos h2] at he
        simp at he
        rcases he with h | h | h
        · exact Or.inl ⟨i, h⟩
        · exact Or.inr ⟨i, _, h⟩
        · exact ih (i + 1) e h
      · simp only [if_neg h2] at he
        simp at he
        rcases he with h | h
        · exact Or.inl ⟨i, h⟩
        · exact Or.inr ⟨i, _, h⟩

/-- Every action of one attempt is the chunk-size read carrying the
configured value, a loop action, or the finalize call. -/
theorem attemptActs_mem (id : String) (ctx : Meta) (total cfg : Int)
    (sc : AttemptSched) (fuel : Nat) (e : Ev)
    (he : e ∈ (attemptActs id ctx total cfg sc fuel).1) :
      e = Ev.chunkSizeRead id cfg
      ∨ (∃ j, e = Ev.onProgress id (progressOf (sc.offsetAt j) total)
                (sc.offsetAt j) total ctx)
      ∨ (∃ j r, e = Ev.chunkSend id j r)
      ∨ e = Ev.finalizeCall id := by
  unfold attemptActs at he
  by_cases hc : sc.createThrows = true
  · simp [hc] at he
  · simp only [hc] at he
    simp only [Bool.false_eq_true, if_false] at he
    by_cases ht : (loopActs id ctx total sc fuel 0).2 = true
    · simp only [if_pos ht] at he
      simp at he
      rcases he with h | h
      · exact Or.inl h
      · rcases loopActs_mem id ctx total sc fuel 0 e h with h2 | h2
        · exact Or.inr (Or.inl h2)
        · exact Or.inr (Or.inr (Or.inl h2))
    · simp only [if_neg ht] at he
      simp at he
      rcases he with h | h | h
      · exact Or.inl h
      · rcases loopActs_mem id ctx total sc fuel 0 e h with h2 | h2
        · exact Or.inr (Or.inl h2)
        · exact Or.inr (Or.inr (Or.inl h2))
      · exact Or.inr (Or.inr (Or.inr h))

/-- Combined facts about any action emitted by `makeAttempts`: a listener
event among them is an `onProgress`, every action belongs to the session,
and a chunk-size read always carries the configured value. -/
theorem runAttempts_mem (id : String) (ctx : Meta) (total cfg : Int) :
    ∀ (scripts : List AttemptSched) (fuel : Nat) (e : Ev),
      e ∈ (runAttempts id ctx total cfg scripts fuel).1 →
      (isListenerEv e = true → isProgressEv e = true)
      ∧ evId e = id
      ∧ (∀ id2 v, e = Ev.chunkSizeRead id2 v → v = cfg) := by
  intro scripts
  induction scripts with
  | nil => intro fuel e he; simp [runAttempts] at he
  | cons sc rest ih =>
    intro fuel e he
    simp only [runAttempts] at he
    have main : e ∈ (attemptActs id ctx total cfg sc fuel).1 →
        (isListenerEv e = true → isProgressEv e = true)
        ∧ evId e = id
        ∧ (∀ id2 v, e = Ev.chunkSizeRead id2 v → v = cfg) := by
      intro hm
      rcases attemptActs_mem id ctx total cfg sc fuel e hm with h | ⟨j, h⟩ | ⟨j, r, h⟩ | h
      all_goals subst h
      · exact ⟨by simp [isListenerEv], by simp [evId], by intro id2 v hv; injection hv with h1 h2; omega⟩
      · exact ⟨fun _ => by simp [isProgressEv], by simp [evId], by intro id2 v hv; exact absurd hv (by simp)⟩
      · exact ⟨by simp [isListenerEv], by simp [evId], by intro id2 v hv; exact absurd hv (by simp)⟩
      · exact ⟨by simp [isListenerEv], by simp [evId], by intro id2 v hv; exact absurd hv (by simp)⟩
    by_cases h1 : (attemptActs id ctx total cfg sc fuel).2 = false
    · simp only [if_pos h1] at he
      exact main he
    · simp only [if_neg h1] at he
      by_cases h2 : sc.errRetryable = true
      · simp only [h2, if_true] at he
        simp at he
        rcases he with h | h
        · exact main h
        · exact ih fuel e h
      · simp only [h2] at he
        simp only [Bool.false_eq_true, if_false] at he
        exact main he

/-- A progress list followed by one terminal event satisfies the tail
shape. -/
theorem tailShape_append (l : List Ev) (t : Ev)
    (hl : ∀ e ∈ l, isProgressEv e = true) (ht : isTerminalEv t = true) :
    tailShape (l ++ [t]) = true := by
  induction l with
  | nil => simpa [tailShape]
  | cons e l ih =>
    have he := hl e (by simp)
    have hrest : ∀ x ∈ l, isProgressEv x = true := fun x hx => hl x (by simp [hx])
    have hne : ((l ++ [t]).isEmpty) = false := by
      cases l <;> simp
    simp [tailShape, hne, he]
    exact ih hrest

/-- Inside the transfer loop every chunk send is immediately preceded by
its iteration's progress event, whatever action precedes the loop trace. -/
theorem chunkPaired_loop (id : String) (ctx : Meta) (total : Int)
    (sc : AttemptSched) :
    ∀ (fuel i : Nat) (prev : Option Ev),
      chunkPairedFrom id ctx total sc.offsetAt prev
        ((loopActs id ctx total sc fuel i).1) = true := by
  intro fuel
  induction fuel with
  | zero => intro i prev; simp [loopActs, chunkPairedFrom]
  | succ n ih =>
    intro i prev
    simp only [loopActs]
    by_cases h1 : sc.throwAt = some i
    · simp [h1, chunkPairedFrom]
    · simp only [if_neg h1]
      by_cases h2 : (sc.chunkRet i > -1 && !finSet sc.finishTime (3 * i + 2)) = true
      · simp only [if_pos h2]
        simp [chunkPairedFrom]
        exact ih (i + 1) _
      · simp only [if_neg h2]
        simp [chunkPairedFrom]

/-- Appending the finalize call does not disturb the chunk-pairing scan. -/
theorem chunkPaired_append_finalize (id : String) (ctx : Meta) (total : Int)
    (off : Nat → Int) :
    ∀ (l : List Ev) (prev : Option Ev) (id2 : String),
      chunkPairedFrom id ctx total off prev (l ++ [Ev.finalizeCall id2]) =
        chunkPairedFrom id ctx total off prev l := by
  intro l
  induction l with
  | nil => intro prev id2; simp [chunkPairedFrom]
  | cons e l ih => intro prev id2; simp [chunkPairedFrom, ih]

/-- When `shouldFinish` is scheduled to become true at phase `T`, the loop
performs at most one chunk send at or after phase `T`. -/
theorem chunksAfter_loop (id : String) (ctx : Meta) (total : Int)
    (sc : AttemptSched) (T : Nat) (hft : sc.finishTime = some T) :
    ∀ (fuel i : Nat),
      chunksAfter T ((loopActs id ctx total sc fuel i).1) ≤ 1 := by
  intro fuel
  induction fuel with
  | zero => intro i; simp [loopActs, chunksAfter]
  | succ n ih =>
    intro i
    simp only [loopActs]
    by_cases h1 : sc.throwAt = some i
    · simp only [if_pos h1]
      simp [chunksAfter, List.filter, isChunkAfter]
      split <;> simp
    · simp only [if_neg h1]
      by_cases h2 : (sc.chunkRet i > -1 && !finSet sc.finishTime (3 * i + 2)) = true
      · simp only [if_pos h2]
        have hfin : finSet sc.finishTime (3 * i + 2) = false := by
          have h3 := h2
          simp only [Bool.and_eq_true, Bool.not_eq_true'] at h3
          exact h3.2
        have hT : ¬ (T ≤ 3 * i + 1) := by
          rw [hft] at hfin
          simp [finSet] at hfin
          omega
        simp [chunksAfter, List.filter_cons, isChunkAfter, hT]
        exact ih (i + 1)
      · simp only [if_neg h2]
        simp [chunksAfter, List.filter, isChunkAfter]
        split <;> simp

/-- When no `uploadChunk` call throws, the loop reports a normal exit. -/
theorem loopActs_no_throw (id : String) (ctx : Meta) (total : Int)
    (sc : AttemptSched) (h : sc.throwAt = none) :
    ∀ (fuel i : Nat), (loopActs id ctx total sc fuel i).2 = false := by
  intro fuel
  induction fuel with
  | zero => intro i; simp [loopActs]
  | succ n ih =>
    intro i
    simp only [loopActs]
    have h1 : ¬ (sc.throwAt = some i) := by simp [h]
    simp only [if_neg h1]
    by_cases h2 : (sc.chunkRet i > -1 && !finSet sc.finishTime (3 * i + 2)) = true
    · simp only [if_pos h2]
      exact ih (i + 1)
    · simp only [if_neg h2]

/-- Attempt-level bound: at most one chunk send happens at or after the
phase at which `shouldFinish` became true. -/
theorem chunksAfter_attempt (id : String) (ctx : Meta) (total cfg : Int)
    (sc : AttemptSched) (fuel : Nat) (T : Nat)
    (hft : sc.finishTime = some T) :
    chunksAfter T ((attemptActs id ctx total cfg sc fuel).1) ≤ 1 := by
  unfold attemptActs
  by_cases hc : sc.createThrows = true
  · simp [hc, chunksAfter]
  · simp only [hc]
    simp only [Bool.false_eq_true, if_false]
    have hloop := chunksAfter_loop id ctx total sc T hft fuel 0
    by_cases ht : (loopActs id ctx total sc fuel 0).2 = true
    · simp only [if_pos ht]
      simpa [chunksAfter, List.filter_cons, isChunkAfter] using hloop
    · simp only [if_neg ht]
      simpa [chunksAfter, List.filter_cons, List.filter_append, isChunkAfter]
        using hloop

/-- On an attempt where neither the upload creation nor a chunk send
throws, the last action is the finalize call. -/
theorem attempt_last_finalize (id : String) (ctx : Meta) (total cfg : Int)
    (sc : AttemptSched) (fuel : Nat) (hc : sc.createThrows = false)
    (ht : sc.throwAt = none) :
    ((attemptActs id ctx total cfg sc fuel).1).getLast? =
      some (Ev.finalizeCall id) := by
  unfold attemptActs
  simp only [hc, Bool.false_eq_true, if_false]
  have h2 := loopActs_no_throw id ctx total sc ht fuel 0
  simp only [h2, Bool.false_eq_true, if_false]
  exact List.getLast?_concat _

/-! Claim theorems. -/

/-- Claim C3, counterexample: with caller metadata already containing
`filename = custom.txt` and a source display name `photo.jpg`, the
constructor does NOT preserve the caller value, refuting the claim that a
caller-provided filename is preserved unchanged. -/
theorem filename_preserved_counterexample :
    ¬ (assocLookup (ctorMeta presetMeta (some "photo.jpg")) "filename" =
        some (some "custom.txt")) := by
  decide

/-- Claim C3, amended: the `CapacitorTusClientRunnable` constructor always
overwrites the `filename` metadata entry with the derived display name,
whether or not the caller supplied one. -/
theorem filename_always_overwritten (m : Meta) (f : Option String) :
    assocLookup (ctorMeta m f) "filename" = some f := by
  unfold ctorMeta
  exact assocLookup_put_self m "filename" f

/-- Claim C4, counterexample: with `shouldFinish` true from phase 0 on (an
abort arriving right at loop entry) and an engine that still has data, the
attempt performs one chunk send after the flag is set, refuting the claim
that no chunk send occurs after the loop observes `shouldFinish`. -/
theorem finish_flag_chunk_counterexample :
    ¬ (chunksAfter 0 ((attemptActs "u1" [] 10 6291456 abortedSched 3).1) = 0) := by
  decide

/-- Claim C4, amended: once `shouldFinish` becomes true (at phase `T`), at
most one further chunk send occurs — the `uploadChunk` evaluation of the
loop condition already in flight — and on a throw-free attempt the last
engine action is the finalize call. -/
theorem finish_flag_bounds_chunks (id : String) (ctx : Meta)
    (total cfg : Int) (sc : AttemptSched) (fuel : Nat) (T : Nat)
    (hft : sc.finishTime = some T) :
    chunksAfter T ((attemptActs id ctx total cfg sc fuel).1) ≤ 1
    ∧ (sc.createThrows = false → sc.throwAt = none →
        ((attemptActs id ctx total cfg sc fuel).1).getLast? =
          some (Ev.finalizeCall id)) := by
  refine ⟨chunksAfter_attempt id ctx total cfg sc fuel T hft, ?_⟩
  intro hc ht
  exact attempt_last_finalize id ctx total cfg sc fuel hc ht

/-- Witness for the amended C4 theorem at the aborted schedule. -/
theorem finish_flag_bounds_chunks_witness :
    chunksAfter 0 ((attemptActs "u1" [] 10 6291456 abortedSched 3).1) ≤ 1
    ∧ ((attemptActs "u1" [] 10 6291456 abortedSched 3).1).getLast? =
        some (Ev.finalizeCall "u1") :=
  ⟨(finish_flag_bounds_chunks "u1" [] 10 6291456 abortedSched 3 0 rfl).1,
   (finish_flag_bounds_chunks "u1" [] 10 6291456 abortedSched 3 0 rfl).2 rfl rfl⟩

/-- Claim C7: in every attempt, each chunk send is immediately preceded by
the `onProgress` event of its iteration, carrying the uploadId, the exact
progress value `bytesUploaded / totalBytes * 100` built from the engine
offset, the total, and the session context; dividing by a zero total is
never a finite number; and a session whose `available()` call threw at
creation has total size 0. -/
theorem progress_precedes_each_chunk (id : String) (ctx : Meta)
    (total cfg : Int) (sc : AttemptSched) (fuel : Nat) :
    chunkPairedFrom id ctx total sc.offsetAt none
      ((attemptActs id ctx total cfg sc fuel).1) = true
    ∧ (∀ b : Int, (progressOf b 0).isFinite = false)
    ∧ (∀ uuid m cur, (mkSession uuid m none cur).total = 0) := by
  refine ⟨?_, ?_, ?_⟩
  · unfold attemptActs
    by_cases hc : sc.createThrows = true
    · simp [hc, chunkPairedFrom]
    · simp only [hc, Bool.false_eq_true, if_false]
      by_cases ht : (loopActs id ctx total sc fuel 0).2 = true
      · simp only [if_pos ht]
        simp [chunkPairedFrom]
        exact chunkPaired_loop id ctx total sc fuel 0 _
      · simp only [if_neg ht]
        simp only [chunkPairedFrom, List.append_eq, Bool.true_and]
        rw [chunkPaired_append_finalize]
        exact chunkPaired_loop id ctx total sc fuel 0 _
  · intro b
    by_cases hb : b = 0 <;> simp [progressOf, hb, JD.isFinite]
  · intro uuid m cur
    simp [mkSession]

/-- Claim C8, counterexample: aborting a session that was constructed but
never executed (`isRunning` false, no uploader assigned) performs no
finalize call, refuting the claim that a non-executing session is
finalized synchronously. -/
theorem finish_idle_counterexample :
    ¬ ((finishSession idleSession).2 = true) := by
  decide

/-- Claim C8, amended: `finish()` performs the synchronous finalize call
exactly when the session is not running AND an uploader exists; when
running it only sets `shouldFinish`; all other run-state flags are left
unchanged. -/
theorem finish_transition (s : SessionState) :
    (finishSession s).2 = (!s.isRunning && s.hasUploader)
    ∧ (finishSession s).1.shouldFinish = (s.isRunning || s.shouldFinish)
    ∧ (finishSession s).1.isRunning = s.isRunning
    ∧ (finishSession s).1.isPaused = s.isPaused
    ∧ (finishSession s).1.hasUploader = s.hasUploader := by
  obtain ⟨id, meta, fp, total, sf, ir, ip, hu⟩ := s
  cases ir <;> cases hu <;> simp [finishSession]

/-- Claim C10, counterexample: when the content query returns a row whose
display-name cell is NULL, the derived file name is Java null rather than
a string, refuting the claim that the derived file name is always a
non-null string. -/
theorem file_name_null_counterexample :
    ¬ ((getFileName (some nullNameCursor)).isSome = true) := by
  decide

/-- Claim C10, amended: the fallback `unknown_file` is used exactly when
the cursor is null, the display-name column is absent, or no row exists;
with a row present the raw cell value (possibly null) is returned; the
constructor stores the derived name as the `filename` metadata entry and
builds the fingerprint `fileName-uploadId` (a null name rendering as the
string `null`). -/
theorem file_name_and_fingerprint :
    getFileName none = some "unknown_file"
    ∧ (∀ c : CursorData, c.hasNameColumn = false ∨ c.hasRow = false →
        getFileName (some c) = some "unknown_file")
    ∧ (∀ c : CursorData, c.hasNameColumn = true → c.hasRow = true →
        getFileName (some c) = c.nameValue)
    ∧ (∀ (uuid : String) (m : Meta) (avail : Option Int)
          (cur : Option CursorData),
        (mkSession uuid m avail cur).fingerprint =
          javaFormatS (getFileName cur) ++ "-" ++ uuid
        ∧ assocLookup (mkSession uuid m avail cur).meta "filename" =
            some (getFileName cur)) := by
  refine ⟨rfl, ?_, ?_, ?_⟩
  · intro c hc
    rcases hc with h | h <;> simp [getFileName, h]
  · intro c h1 h2
    simp [getFileName, h1, h2]
  · intro uuid m avail cur
    constructor
    · simp [mkSession, fingerprintOf]
    · simp only [mkSession]
      exact assocLookup_put_self m "filename" (getFileName cur)

/-- Witness for the amended C10 theorem at concrete cursors. -/
theorem file_name_and_fingerprint_witness :
    getFileName (some { hasNameColumn := false, hasRow := true, nameValue := some "a" }) =
      some "unknown_file"
    ∧ getFileName (some nullNameCursor) = nullNameCursor.nameValue
    ∧ (mkSession "u1" [] (some 10) none).fingerprint =
        javaFormatS (getFileName none) ++ "-" ++ "u1" :=
  ⟨file_name_and_fingerprint.2.1 _ (Or.inl rfl),
   file_name_and_fingerprint.2.2.1 nullNameCursor rfl rfl,
   (file_name_and_fingerprint.2.2.2 "u1" [] (some 10) none).1⟩

/-- A trace consisting of the session's `onStart`, session actions whose
listener events are all `onProgress`, and one terminal listener event of
the session satisfies the per-session event-ordering shape. -/
theorem sessionShape_of (id : String) (m : Meta) (acts : List Ev) (t : Ev)
    (hacts : ∀ e ∈ acts, isListenerEv e = true → isProgressEv e = true)
    (ht : isTerminalEv t = true) (htl : isListenerEv t = true)
    (hti : evId t = id) :
    sessionShape (eventsFor id ((Ev.onStart id m :: acts) ++ [t])) = true := by
  have h1 : (isListenerEv (Ev.onStart id m) && decide (evId (Ev.onStart id m) = id)) = true := by
    simp [isListenerEv, evId]
  have h2 : (isListenerEv t && decide (evId t = id)) = true := by
    rw [htl, hti]
    simp
  simp only [eventsFor, List.filter_append, List.filter_cons, List.filter_nil,
    h1, h2]
  simp only [eq_self_iff_true, if_true, List.cons_append, sessionShape,
    isStartEv, Bool.true_and]
  apply tailShape_append
  · intro e he
    rw [List.mem_filter] at he
    obtain ⟨h1, h2⟩ := he
    simp only [Bool.and_eq_true] at h2
    exact hacts e h1 h2.1
  · exact ht

/-- Claim C1, counterexample: after a session's run loop completed with
`onSuccess`, calling `resume` resubmits the runnable and the pool runs it
again, emitting a second `onStart` (and a second terminal event) for the
same uploadId — the strict per-session ordering is violated. -/
theorem event_order_resume_counterexample :
    ¬ (sessionShape (eventsFor "u1" resumeScenarioEvents) = true) := by
  decide

/-- Claim C1, amended: within one execution of `run()` the events of the
session form the strict order `onStart`, zero or more `onProgress`, then
exactly one of `onSuccess` or `onError`, with nothing after the terminal
event of that execution (resume-after-exit starts a fresh execution and
hence a fresh such sequence). -/
theorem run_emits_strict_event_order (s : SessionState) (cfg : Int)
    (scripts : List AttemptSched) (fuel : Nat) :
    sessionShape (eventsFor s.uploadId (runSession s cfg scripts fuel).2) = true := by
  have hmem := runAttempts_mem s.uploadId s.meta s.total cfg scripts fuel
  show sessionShape (eventsFor s.uploadId
    ((Ev.onStart s.uploadId s.meta ::
        (runAttempts s.uploadId s.meta s.total cfg scripts fuel).1)
      ++ [if (runAttempts s.uploadId s.meta s.total cfg scripts fuel).2.1 then
            Ev.onSuccess s.uploadId s.meta
          else Ev.onError s.uploadId s.meta])) = true
  apply sessionShape_of
  · intro e he
    exact (hmem e he).1
  · split <;> rfl
  · split <;> rfl
  · split <;> rfl

/-- Claim C2, counterexample: after an upload request with custom chunk
size 1000, a second session created WITHOUT a custom chunk size reads
chunk size 1000 at its transfer start, not the 6 MiB the process-wide
setting had before that request — the custom value leaks to other
sessions. -/
theorem chunk_size_isolation_counterexample :
    ¬ (chunkReadsFor "u2" chunkScenarioEvents = [6 * 1024 * 1024]) := by
  decide

/-- Claim C2, amended: an upload request that passes validation and
supplies a positive custom chunk size overwrites the process-wide
singleton setting; every session reads the setting's current value at the
start of each transfer attempt, so all sessions whose attempts start after
the overwrite observe the new value. -/
theorem chunk_size_setting_semantics :
    (∀ (st : PluginState) (uuid : String) (o : UploadOpts) (env : UploadEnv)
        (c : Int) (u ep : String),
        o.uri = some u → u ≠ "" → o.endpoint = some ep →
        o.chunkSize = some c → 0 < c →
        (uploadCall st uuid (some o) env).1.config = c)
    ∧ (∀ (st : PluginState) (scripts : List AttemptSched) (fuel : Nat)
          (id2 : String) (v : Int),
        Ev.chunkSizeRead id2 v ∈ (stepOp st (Op.opRun scripts fuel)).2 →
        v = st.config) := by
  constructor
  · intro st uuid o env c u ep hu hne hep hcs hpos
    obtain ⟨uri0, ep0, hd0, md0, cs0⟩ := o
    simp only at hu hep hcs
    subst hu hep hcs
    obtain ⟨stream, cursor⟩ := env
    cases stream <;>
      simp only [uploadCall, if_neg hne, if_pos hpos, gt_iff_lt] <;>
      simp [hne, hpos, mkSession, isRunningM] <;>
      split <;> simp
  · intro st scripts fuel id2 v hv
    cases hpool : st.pool with
    | nil => simp [stepOp, hpool] at hv
    | cons hd tl =>
      cases hlook : assocLookup st.executorsMap hd with
      | none => simp [stepOp, hpool, hlook] at hv
      | some s =>
        simp only [stepOp, hpool, hlook] at hv
        simp only [runSession, List.cons_append, List.mem_cons,
          List.mem_append, List.mem_singleton] at hv
        rcases hv with h | h | h
        · simp at h
        · exact ((runAttempts_mem s.uploadId s.meta s.total st.config
            scripts fuel) (Ev.chunkSizeRead id2 v) h).2.2 id2 v rfl
        · revert h
          split <;> intro h <;> simp at h

/-- Witness for the amended C2 theorem: the custom-chunk upload sets the
singleton to 1000, and a dispatched session reads exactly the current
setting. -/
theorem chunk_size_setting_semantics_witness :
    (uploadCall initialState "u1" (some customChunkOpts) okEnv).1.config = 1000
    ∧ (6291456 : Int) =
        ((runOps initialState [Op.opUpload "u1" (some okOpts) okEnv]).1).config :=
  ⟨chunk_size_setting_semantics.1 initialState "u1" customChunkOpts okEnv 1000
      "content://doc/1" "http://example.test/files" rfl (by decide) rfl rfl
      (by decide),
   chunk_size_setting_semantics.2
      ((runOps initialState [Op.opUpload "u1" (some okOpts) okEnv]).1)
      [okSched] 4 "u1" 6291456 (by decide)⟩

/-- Claim C5: every command (`pause`, `resume`, `abort`) on a null or
unknown uploadId rejects synchronously with the invalid-uploadId message,
leaves the plugin state (registry, pool, configuration) unchanged, and
emits no event. -/
theorem unknown_id_commands (st : PluginState) (id : Option String)
    (ff : Bool) (h : ∀ s, id = some s → assocLookup st.executorsMap s = none) :
    pauseCall st id = (st, CmdRes.rejected "Invalid or missing uploadId", [])
    ∧ resumeCall st id = (st, CmdRes.rejected "Invalid or missing uploadId", [])
    ∧ abortCall st id ff = (st, CmdRes.rejected "Invalid or missing uploadId", []) := by
  cases id with
  | none => exact ⟨rfl, rfl, rfl⟩
  | some s =>
    have hs := h s rfl
    refine ⟨?_, ?_, ?_⟩ <;> simp [pauseCall, resumeCall, abortCall, hs]

/-- Witness for the C5 theorem on the empty registry. -/
theorem unknown_id_commands_witness :
    pauseCall initialState (some "nope") =
      (initialState, CmdRes.rejected "Invalid or missing uploadId", [])
    ∧ resumeCall initialState (some "nope") =
      (initialState, CmdRes.rejected "Invalid or missing uploadId", [])
    ∧ abortCall initialState (some "nope") false =
      (initialState, CmdRes.rejected "Invalid or missing uploadId", []) :=
  unknown_id_commands initialState (some "nope") false
    (by intro s hs; cases hs; rfl)

/-- Claim C6: an upload request with an empty endpoint and a non-empty uri
is rejected synchronously (the `new URL("")` throw is caught before the
registry insert), the registry and the pool are unchanged, and no event is
emitted. -/
theorem empty_endpoint_upload_rejected (st : PluginState) (uuid : String)
    (o : UploadOpts) (env : UploadEnv) (u : String)
    (he : o.endpoint = some "") (hu : o.uri = some u) (hne : u ≠ "") :
    (uploadCall st uuid (some o) env).1.executorsMap = st.executorsMap
    ∧ (uploadCall st uuid (some o) env).1.pool = st.pool
    ∧ (∃ msg, (uploadCall st uuid (some o) env).2.1 = CmdRes.rejected msg)
    ∧ (uploadCall st uuid (some o) env).2.2 = ([] : List Ev) := by
  obtain ⟨uri0, ep0, hd0, md0, cs0⟩ := o
  simp only at he hu
  subst he hu
  obtain ⟨stream, cursor⟩ := env
  have hurl : urlValid "" = false := by decide
  cases stream with
  | opensWith avail =>
      refine ⟨?_, ?_, ⟨"Error creating upload: no protocol", ?_⟩, ?_⟩ <;>
        simp [uploadCall, hne, hurl]
  | opensNull =>
      refine ⟨?_, ?_, ⟨"Unable to open file stream for the Uri.", ?_⟩, ?_⟩ <;>
        simp [uploadCall, hne]
  | throwsIO =>
      refine ⟨?_, ?_, ⟨"Error creating upload: stream", ?_⟩, ?_⟩ <;>
        simp [uploadCall, hne]

/-- Witness for the C6 theorem at a concrete request. -/
theorem empty_endpoint_upload_rejected_witness :
    (uploadCall initialState "u1" (some emptyEndpointOpts) okEnv).1.executorsMap =
      initialState.executorsMap
    ∧ (uploadCall initialState "u1" (some emptyEndpointOpts) okEnv).1.pool =
      initialState.pool
    ∧ (∃ msg, (uploadCall initialState "u1" (some emptyEndpointOpts) okEnv).2.1 =
        CmdRes.rejected msg)
    ∧ (uploadCall initialState "u1" (some emptyEndpointOpts) okEnv).2.2 =
      ([] : List Ev) :=
  empty_endpoint_upload_rejected initialState "u1" emptyEndpointOpts okEnv
    "content://doc/1" rfl rfl (by decide)

/-- Claim C9: a non-positive custom chunk size is silently ignored — the
request behaves exactly as if no custom chunk size had been supplied, the
process-wide setting is left unchanged, and that setting is initialised to
6 MiB. -/
theorem nonpositive_chunk_size_ignored (st : PluginState) (uuid : String)
    (o : UploadOpts) (env : UploadEnv) (c : Int)
    (hc : o.chunkSize = some c) (hnp : c ≤ 0) :
    uploadCall st uuid (some o) env =
      uploadCall st uuid (some { o with chunkSize := none }) env
    ∧ (uploadCall st uuid (some o) env).1.config = st.config
    ∧ initialState.config = 6 * 1024 * 1024 := by
  obtain ⟨uri0, ep0, hd0, md0, cs0⟩ := o
  simp only at hc
  subst hc
  have hpos : ¬ (c > 0) := by omega
  refine ⟨?_, ?_, rfl⟩
  · simp [uploadCall, hpos]
  · cases uri0 with
    | none => simp [uploadCall]
    | some u =>
      by_cases hu : u = ""
      · simp [uploadCall, hu]
      · cases ep0 with
        | none => simp [uploadCall, hu]
        | some ep =>
          obtain ⟨stream, cursor⟩ := env
          cases stream <;>
            simp [uploadCall, hu, hpos, mkSession, isRunningM] <;>
            split <;> simp

/-- Witness for the C9 theorem with a zero custom chunk size. -/
theorem nonpositive_chunk_size_ignored_witness :
    uploadCall initialState "u1" (some zeroChunkOpts) okEnv =
      uploadCall initialState "u1" (some { zeroChunkOpts with chunkSize := none }) okEnv
    ∧ (uploadCall initialState "u1" (some zeroChunkOpts) okEnv).1.config =
      initialState.config
    ∧ initialState.config = 6 * 1024 * 1024 :=
  nonpositive_chunk_size_ignored initialState "u1" zeroChunkOpts okEnv 0 rfl
    (by decide)

end TusClient
